import Mathlib

/-
  Verification of the llm-council repository frontend against its
  natural-language specification.

  The definitions below are shallow embeddings of the JavaScript source:
  - useConversation (hooks/useConversation.js): the SSE stream consumer
    and the sendMessage optimistic-update / recovery logic.
  - Settings.jsx: handleToggleModel and handleSave.
  - Stage1.jsx: the Stage-1 tab view rendering.
  Backend components that are not part of the repository snapshot under
  src/ (the deliberation orchestrator, the Anonymizer, the Ranking
  Aggregator and estimateCost) are modelled from the specification text;
  each such definition carries a doc comment saying so.
-/

namespace LLMCouncil

/-! ## Stream events and the conversation data model (useConversation.js) -/

/-- The loading flags of the partial assistant message, exactly the
object literal built in sendMessage:
loading = \x7b resolving, stage1, stage2, stage3 \x7d. -/
structure Loading where
  resolving : Bool
  stage1 : Bool
  stage2 : Bool
  stage3 : Bool
deriving DecidableEq

/-- A message of a conversation as manipulated by useConversation.
The stage payloads are opaque to the consumer (it stores event.data and
event.metadata verbatim), so they are a type parameter. -/
structure Message (α : Type) where
  role : String
  content : String
  stage1 : Option α
  stage2 : Option α
  stage3 : Option α
  metadata : Option α
  loading : Loading
deriving DecidableEq

/-- The server-sent events handled by the stream consumer switch in
sendMessage, one constructor per eventType string. -/
inductive StreamEvent (α : Type) where
  | resolvingPersonas
  | stage1Start
  | stage1Complete (data : α)
  | stage2Start
  | stage2Complete (data : α) (metadata : α)
  | stage2_5Start
  | stage3Start
  | stage3Complete (data : α)
  | titleComplete
  | complete
  | error (message : String)
deriving DecidableEq

/-- The event kind, forgetting payloads (the eventType tag on the wire). -/
inductive EventKind where
  | resolvingPersonas
  | stage1Start
  | stage1Complete
  | stage2Start
  | stage2Complete
  | stage2_5Start
  | stage3Start
  | stage3Complete
  | titleComplete
  | complete
  | error
deriving DecidableEq

def StreamEvent.kind {α : Type} : StreamEvent α → EventKind
  | .resolvingPersonas => .resolvingPersonas
  | .stage1Start => .stage1Start
  | .stage1Complete _ => .stage1Complete
  | .stage2Start => .stage2Start
  | .stage2Complete _ _ => .stage2Complete
  | .stage2_5Start => .stage2_5Start
  | .stage3Start => .stage3Start
  | .stage3Complete _ => .stage3Complete
  | .titleComplete => .titleComplete
  | .complete => .complete
  | .error _ => .error

/-- The update the consumer switch applies to the cloned last message
(updatedLastMsg) for each event, translated case by case from the
switch in sendMessage (useConversation.js).  title_complete, complete
and error do not touch the message fields (their branches only trigger
loadConversations / setIsLoading side effects). -/
def eventUpdate {α : Type} : StreamEvent α → Message α → Message α
  | .resolvingPersonas, m =>
      { m with loading := { m.loading with resolving := true } }
  | .stage1Start, m =>
      { m with loading := { m.loading with resolving := false, stage1 := true } }
  | .stage1Complete d, m =>
      { m with stage1 := some d, loading := { m.loading with stage1 := false } }
  | .stage2Start, m =>
      { m with loading := { m.loading with stage2 := true } }
  | .stage2Complete d md, m =>
      { m with stage2 := some d, metadata := some md,
               loading := { m.loading with stage2 := false } }
  | .stage2_5Start, m =>
      { m with loading := { m.loading with stage1 := true } }
  | .stage3Start, m =>
      { m with loading := { m.loading with stage3 := true } }
  | .stage3Complete d, m =>
      { m with stage3 := some d, loading := { m.loading with stage3 := false } }
  | .titleComplete, m => m
  | .complete, m => m
  | .error _, m => m

/-- Replace the last element of a list by its image under f, the
messages[messages.length - 1] = updatedLastMsg assignment after the
messages array was cloned.  (On an empty list the JavaScript callback
would fault dereferencing undefined; the consumer only ever runs it
after two messages were appended, and the theorems below assume a
non-empty list.) -/
def updateLast {β : Type} (f : β → β) : List β → List β
  | [] => []
  | [m] => [f m]
  | m :: n :: rest => m :: updateLast f (n :: rest)

/-- One step of the setCurrentConversation updater inside the stream
callback: clone the message list and replace its last element. -/
def applyEvent {α : Type} (msgs : List (Message α)) (e : StreamEvent α) :
    List (Message α) :=
  updateLast (eventUpdate e) msgs

/-- The optimistic user message appended by sendMessage
(fields other than role and content are absent, modelled as none). -/
def userMessage {α : Type} (content : String) : Message α :=
  { role := "user", content := content, stage1 := none, stage2 := none,
    stage3 := none, metadata := none,
    loading := { resolving := false, stage1 := false, stage2 := false, stage3 := false } }

/-- The partial assistant message placeholder appended by sendMessage. -/
def assistantPlaceholder {α : Type} : Message α :=
  { role := "assistant", content := "", stage1 := none, stage2 := none,
    stage3 := none, metadata := none,
    loading := { resolving := false, stage1 := false, stage2 := false, stage3 := false } }

/-- Conversation state visible to the consumer: the message list plus
the isLoading flag of the hook. -/
structure ConvState (α : Type) where
  messages : List (Message α)
  isLoading : Bool
deriving DecidableEq

/-- Processing one stream event: the message-list update together with
the setIsLoading(false) side effect in the complete and error branches. -/
def processEvent {α : Type} (s : ConvState α) (e : StreamEvent α) : ConvState α :=
  { messages := applyEvent s.messages e,
    isLoading :=
      match e with
      | .complete => false
      | .error _ => false
      | _ => s.isLoading }

/-- The failing run of sendMessage: setIsLoading(true), append the
optimistic user message and the assistant placeholder, process the
events delivered before api.sendMessageStream threw, then the catch
block: drop the last two messages
(messages.slice(0, Math.max(0, msgCount - 2)), which Nat subtraction
mirrors) and setIsLoading(false). -/
def sendMessageFailed {α : Type} (init : ConvState α) (content : String)
    (events : List (StreamEvent α)) : ConvState α :=
  let optimistic : ConvState α :=
    { messages := init.messages ++ [userMessage content, assistantPlaceholder],
      isLoading := true }
  let streamed := events.foldl processEvent optimistic
  { messages := streamed.messages.take (streamed.messages.length - 2),
    isLoading := false }

/-! ## Settings.jsx: council selection and configuration save -/

/-- handleToggleModel from Settings.jsx: a selected model is removed
(all occurrences, councilModels.filter(m !== modelId)) but only when
at least two models are selected; an unselected model is appended. -/
def handleToggleModel (councilModels : List String) (modelId : String) :
    List String :=
  if modelId ∈ councilModels then
    if councilModels.length > 1 then
      councilModels.filter (fun m => m != modelId)
    else
      councilModels
  else
    councilModels ++ [modelId]

/-- The externally observable actions handleSave can perform, in program
order: state setters, the api.updateConfig network call, the
localStorage write, the onSaveOverride callback and the delayed close. -/
inductive SaveAction where
  | setErrorMsg (msg : Option String)
  | setSavingFlag (b : Bool)
  | setSuccessMsg (msg : String)
  | callUpdateConfig (council : List String) (chairman : String)
  | callSaveOverride (council : List String) (chairman : String)
  | writeLocalStorage (council : List String) (chairman : String)
  | scheduleClose
deriving DecidableEq

/-- handleSave from Settings.jsx as its trace of actions on the path
where the network call succeeds.  An empty council list or a falsy
(empty) chairman string is rejected with setError before anything else
happens; !chairmanModel in JavaScript is true exactly on the empty
string.  When onSaveOverride is present the handler calls it and
returns (the finally block still clears the saving flag). -/
def handleSave (hasOverride : Bool) (councilModels : List String)
    (chairmanModel : String) : List SaveAction :=
  if councilModels.length = 0 then
    [.setErrorMsg (some "Please select at least one council member")]
  else if chairmanModel = "" then
    [.setErrorMsg (some "Please select a chairman model")]
  else
    [.setSavingFlag true, .setErrorMsg none, .setSuccessMsg ""] ++
    (if hasOverride then
      [.callSaveOverride councilModels chairmanModel]
    else
      [.callUpdateConfig councilModels chairmanModel,
       .writeLocalStorage councilModels chairmanModel,
       .setSuccessMsg "Configuration saved successfully!",
       .scheduleClose]) ++
    [.setSavingFlag false]

/-! ## Stage1.jsx: the Stage-1 tab view -/

/-- One model result as consumed by the Stage1 component.  String
fields model absent-or-empty JavaScript values as the empty string,
matching their truthiness tests in the component. -/
structure ModelResult where
  model : String
  response : String
  thinking : String
  persona : String
  error : String
  is_rebuttal : Bool
  is_reasoning_model : Bool
deriving DecidableEq

/-- The tab label: index 1 of the model id split on the slash when that
part exists and is non-empty (truthy), else the full model id. -/
def tabLabel (model : String) : String :=
  match model.splitOn "/" with
  | _ :: second :: _ => if second = "" then model else second
  | _ => model

/-- One tab button of the Stage1 view: the warning marker and error
styling are present exactly when resp.error is truthy, the tooltip is
resp.error || two quotes. -/
structure TabButton where
  warningMarker : Bool
  errorStyled : Bool
  tooltip : String
  label : String
deriving DecidableEq

def renderTab (r : ModelResult) : TabButton :=
  { warningMarker := r.error != "",
    errorStyled := r.error != "",
    tooltip := r.error,
    label := tabLabel r.model }

/-- The body of the active tab: either the error-message block (the
response text is not rendered at all) or the normal answer body with
the optional thinking section. -/
inductive TabBody where
  | failure (msg : String)
  | answer (showThinking : Bool) (thinking : String) (response : String)
deriving DecidableEq

/-- The content panel rendered for the active tab of Stage1. -/
structure TabContent where
  modelName : String
  reasoningBadge : Bool
  errorBadge : Bool
  personaBadge : Option String
  rebuttalBadge : Option String
  body : TabBody
deriving DecidableEq

def renderContent (r : ModelResult) : TabContent :=
  { modelName := r.model,
    reasoningBadge := r.is_reasoning_model,
    errorBadge := r.error != "",
    personaBadge := if r.persona != "" then some r.persona else none,
    rebuttalBadge :=
      if r.is_rebuttal then
        some "This answer was updated after peer review."
      else none,
    body :=
      if r.error != "" then
        .failure r.error
      else
        .answer (r.thinking != "" && decide (50 < r.thinking.length))
          r.thinking r.response }

/-- The tab row of the Stage1 component: responses.map over every
result (the component returns null, hence no tabs, on an empty or
missing list). -/
def stage1Tabs (responses : List ModelResult) : List TabButton :=
  if responses.isEmpty then [] else responses.map renderTab

/-! ## Spec-modelled backend components

The deliberation orchestrator, the Anonymizer, the Ranking Aggregator
and estimateCost are backend code that is not part of the repository
snapshot under src/ (only the frontend consumes them); they are
modelled here from the specification text. -/

/-- Whether an event kind is one of the stage events of the canonical
ordering (everything but TitleComplete and Error). -/
def isStageKind : EventKind → Bool
  | .titleComplete => false
  | .error => false
  | _ => true

/-- The canonical stage-event order of the specification:
ResolvingPersonas, Stage1Start, Stage1Complete, Stage2Start,
Stage2Complete, Stage2_5Start, Stage3Start, Stage3Complete, Complete. -/
def canonicalStageOrder : List EventKind :=
  [.resolvingPersonas, .stage1Start, .stage1Complete, .stage2Start,
   .stage2Complete, .stage2_5Start, .stage3Start, .stage3Complete, .complete]

/-- Modelled from the spec: the event sequence the backend Deliberation
Orchestrator emits for one successful Exchange (its code is not under
src/).  Per the state machine of the spec, persona resolution, the
Stage 2 / 2.5 round (skipped for a single council member) and the title
event are optional, every other stage event is emitted in machine
order, and the Event Emitter delivers them to the single consumer
without reordering or dropping. -/
def orchestratorEvents {α : Type} (resolving s2 s25 title : Bool)
    (d1 d2 md d3 : α) : List (StreamEvent α) :=
  (if resolving then [.resolvingPersonas] else []) ++
  [.stage1Start, .stage1Complete d1] ++
  (if s2 then [.stage2Start, .stage2Complete d2 md] else []) ++
  (if s25 then [.stage2_5Start] else []) ++
  [.stage3Start, .stage3Complete d3] ++
  (if title then [.titleComplete] else []) ++
  [.complete]

/-- Modelled from the spec: the Anonymizer of one Exchange (its code is
not under src/), a label-to-model association list owned by the
Exchange.  reveal and hide are pure lookups; an unknown argument yields
none (the fatal caller error of the spec). -/
def reveal (mapping : List (String × String)) (label : String) :
    Option String :=
  (mapping.find? (fun p => p.1 == label)).map (fun p => p.2)

/-- Modelled from the spec: the inverse lookup of the Anonymizer. -/
def hide (mapping : List (String × String)) (model : String) :
    Option String :=
  (mapping.find? (fun p => p.2 == model)).map (fun p => p.1)

/-- A well-formed Anonymizer mapping: labels are pairwise distinct and
models are pairwise distinct (each label maps to exactly one model and
vice versa). -/
def WellFormedMapping (mapping : List (String × String)) : Prop :=
  (mapping.map (fun p => p.1)).Nodup ∧ (mapping.map (fun p => p.2)).Nodup

/-- Modelled from the spec: the Ranking Aggregator (backend code not
under src/).  The 1-based positions an answer received across exactly
those peer reviews that ranked it; a review not containing the answer
contributes nothing. -/
def rankPositions (reviews : List (List String)) (answer : String) :
    List Nat :=
  reviews.filterMap (fun r => (r.findIdx? (fun x => x == answer)).map (· + 1))

/-- Number of reviews that ranked the answer. -/
def voteCount (reviews : List (List String)) (answer : String) : Nat :=
  (rankPositions reviews answer).length

/-- Sum of the positions the answer received. -/
def rankSum (reviews : List (List String)) (answer : String) : Nat :=
  (rankPositions reviews answer).sum

/-- The mean of the positions of an answer across the reviews that
ranked it (lower is better). -/
def meanRank (reviews : List (List String)) (answer : String) : Rat :=
  (rankSum reviews answer : Rat) / (voteCount reviews answer : Rat)

/-- Comparison of two answers by mean rank, by cross multiplication so
that it is computable over Nat. -/
def betterThan (reviews : List (List String)) (a b : String) : Bool :=
  rankSum reviews a * voteCount reviews b <
    rankSum reviews b * voteCount reviews a

/-- The labels occurring in the reviews, in first-appearance order
(the stable input order used for tie-breaks). -/
def labelsOf (reviews : List (List String)) : List String :=
  (reviews.foldl (fun acc r => acc ++ r) []).foldl
    (fun acc x => if x ∈ acc then acc else acc ++ [x]) []

/-- Stable insertion of a label into a list sorted by mean rank. -/
def insertRanked (reviews : List (List String)) (x : String) :
    List String → List String
  | [] => [x]
  | y :: ys =>
      if betterThan reviews x y then x :: y :: ys
      else y :: insertRanked reviews x ys

/-- The aggregate ordering: all labels sorted by mean rank, lower mean
first, insertion being stable so equal means keep input order. -/
def aggregateOrder (reviews : List (List String)) : List String :=
  (labelsOf reviews).foldr (insertRanked reviews) []

/-- Modelled from the spec: estimateCost, a pure function over a static
price table (model id to cost per token) and a token-count
approximation, used for pre-flight display without calling any model.
The environment argument stands for everything outside the inputs
(random state, network): the result does not consult it, and the
returned call log records the model invocations performed (none). -/
structure CostEstimate where
  promptTokens : Nat
  estimatedCost : Rat
deriving DecidableEq

/-- Token-count approximation over the query text (about one token per
four characters, the approximation the frontend also displays). -/
def approxTokens (query : String) : Nat :=
  query.length / 4

/-- Price per token of a model from the static price table. -/
def modelPrice (priceTable : List (String × Rat)) (model : String) : Rat :=
  ((priceTable.find? (fun p => p.1 == model)).map (fun p => p.2)).getD 0

/-- Modelled from the spec: estimateCost over the price table; the
second component of the result is the list of model ids actually
invoked during estimation, which stays empty because the estimate is
computed from the table alone. -/
def estimateCost (env : Nat) (priceTable : List (String × Rat))
    (query : String) (councilMembers : List String) (chairman : String) :
    CostEstimate × List String :=
  let _ := env
  let t := approxTokens query
  ({ promptTokens := t,
     estimatedCost :=
       (councilMembers ++ [chairman]).foldl
         (fun acc m => acc + t * modelPrice priceTable m) 0 },
   [])

/-! ## Derived property definitions -/

/-- The frame condition of one consumer update: every field of the last
message not named by the case of the event is left unchanged (the role
and content fields are never touched by any case). -/
def untouchedAgree {α : Type} (e : StreamEvent α) (m : Message α) : Prop :=
  let u := eventUpdate e m
  u.role = m.role ∧ u.content = m.content ∧
  match e with
  | .resolvingPersonas =>
      u.stage1 = m.stage1 ∧ u.stage2 = m.stage2 ∧ u.stage3 = m.stage3 ∧
      u.metadata = m.metadata ∧ u.loading.stage1 = m.loading.stage1 ∧
      u.loading.stage2 = m.loading.stage2 ∧ u.loading.stage3 = m.loading.stage3
  | .stage1Start =>
      u.stage1 = m.stage1 ∧ u.stage2 = m.stage2 ∧ u.stage3 = m.stage3 ∧
      u.metadata = m.metadata ∧
      u.loading.stage2 = m.loading.stage2 ∧ u.loading.stage3 = m.loading.stage3
  | .stage1Complete _ =>
      u.stage2 = m.stage2 ∧ u.stage3 = m.stage3 ∧ u.metadata = m.metadata ∧
      u.loading.resolving = m.loading.resolving ∧
      u.loading.stage2 = m.loading.stage2 ∧ u.loading.stage3 = m.loading.stage3
  | .stage2Start =>
      u.stage1 = m.stage1 ∧ u.stage2 = m.stage2 ∧ u.stage3 = m.stage3 ∧
      u.metadata = m.metadata ∧ u.loading.resolving = m.loading.resolving ∧
      u.loading.stage1 = m.loading.stage1 ∧ u.loading.stage3 = m.loading.stage3
  | .stage2Complete _ _ =>
      u.stage1 = m.stage1 ∧ u.stage3 = m.stage3 ∧
      u.loading.resolving = m.loading.resolving ∧
      u.loading.stage1 = m.loading.stage1 ∧ u.loading.stage3 = m.loading.stage3
  | .stage2_5Start =>
      u.stage1 = m.stage1 ∧ u.stage2 = m.stage2 ∧ u.stage3 = m.stage3 ∧
      u.metadata = m.metadata ∧ u.loading.resolving = m.loading.resolving ∧
      u.loading.stage2 = m.loading.stage2 ∧ u.loading.stage3 = m.loading.stage3
  | .stage3Start =>
      u.stage1 = m.stage1 ∧ u.stage2 = m.stage2 ∧ u.stage3 = m.stage3 ∧
      u.metadata = m.metadata ∧ u.loading.resolving = m.loading.resolving ∧
      u.loading.stage1 = m.loading.stage1 ∧ u.loading.stage2 = m.loading.stage2
  | .stage3Complete _ =>
      u.stage1 = m.stage1 ∧ u.stage2 = m.stage2 ∧ u.metadata = m.metadata ∧
      u.loading.resolving = m.loading.resolving ∧
      u.loading.stage1 = m.loading.stage1 ∧ u.loading.stage2 = m.loading.stage2
  | .titleComplete => u = m
  | .complete => u = m
  | .error _ => u = m

/-! ## Helper lemmas -/

theorem updateLast_append {β : Type} (f : β → β) (xs : List β) (x : β) :
    updateLast f (xs ++ [x]) = xs ++ [f x] := by
  induction xs with
  | nil => rfl
  | cons a as ih =>
      cases as with
      | nil => rfl
      | cons b bs => simpa [updateLast] using ih

theorem applyEvent_append {α : Type} (xs : List (Message α)) (x : Message α)
    (e : StreamEvent α) :
    applyEvent (xs ++ [x]) e = xs ++ [eventUpdate e x] :=
  updateLast_append (eventUpdate e) xs x

/-- Folding the consumer over any event sequence leaves every message
except the last untouched. -/
theorem foldl_processEvent_messages {α : Type} (events : List (StreamEvent α))
    (base : List (Message α)) (a : Message α) (b : Bool) :
    ∃ y : Message α, ∃ b2 : Bool,
      events.foldl processEvent { messages := base ++ [a], isLoading := b } =
        { messages := base ++ [y], isLoading := b2 } := by
  induction events generalizing a b with
  | nil => exact ⟨a, b, rfl⟩
  | cons e es ih =>
      have hstep : processEvent { messages := base ++ [a], isLoading := b } e =
          { messages := base ++ [eventUpdate e a],
            isLoading := match e with
                         | .complete => false
                         | .error _ => false
                         | _ => b } := by
        simp [processEvent, applyEvent_append]
      rw [List.foldl_cons, hstep]
      exact ih _ _

/-- The cross-multiplication comparison agrees with the mean-rank
comparison whenever both answers were ranked at least once. -/
theorem betterThan_iff_meanRank_lt (reviews : List (List String))
    (a b : String) (ha : 0 < voteCount reviews a)
    (hb : 0 < voteCount reviews b) :
    betterThan reviews a b = true ↔ meanRank reviews a < meanRank reviews b := by
  have ha2 : (0 : Rat) < (voteCount reviews a : Rat) := by exact_mod_cast ha
  have hb2 : (0 : Rat) < (voteCount reviews b : Rat) := by exact_mod_cast hb
  rw [betterThan, meanRank, meanRank, div_lt_div_iff₀ ha2 hb2]
  rw [decide_eq_true_iff]
  constructor
  · intro h; exact_mod_cast h
  · intro h; exact_mod_cast h

/-! ## Claim theorems -/

/-- C7: every stream event processed by the consumer replaces only the
last message of the conversation (all earlier messages are unchanged),
and within that last message only the fields named by the case of the
event change. -/
theorem claim7_consumer_frame (α : Type) (pre : List (Message α))
    (last : Message α) (e : StreamEvent α) :
    applyEvent (pre ++ [last]) e = pre ++ [eventUpdate e last] ∧
    untouchedAgree e last := by
  refine ⟨applyEvent_append pre last e, ?_⟩
  cases e <;> simp [untouchedAgree, eventUpdate]

/-- C9: when the streaming send throws, sendMessage restores the
conversation to its pre-send state: the catch block removes exactly the
two optimistically appended messages, leaving the message list equal to
its value before the call, and clears the loading flag. -/
theorem claim9_send_failure_rollback (α : Type) (init : ConvState α)
    (content : String) (events : List (StreamEvent α)) :
    (sendMessageFailed init content events).messages = init.messages ∧
    (sendMessageFailed init content events).isLoading = false := by
  refine ⟨?_, rfl⟩
  obtain ⟨y, b2, h⟩ := foldl_processEvent_messages events
      (init.messages ++ [userMessage content]) assistantPlaceholder true
  have hopt : init.messages ++ [userMessage content, assistantPlaceholder] =
      (init.messages ++ [userMessage content]) ++ [assistantPlaceholder] := by
    simp
  simp only [sendMessageFailed, hopt, h]
  have hassoc : init.messages ++ [userMessage content] ++ [y] =
      init.messages ++ ([userMessage content] ++ [y]) := by simp
  have hlen : (init.messages ++ [userMessage content] ++ [y]).length - 2 =
      init.messages.length := by simp
  rw [hlen, hassoc, List.take_left]

/-- One handleToggleModel call keeps a non-empty duplicate-free
selection non-empty and duplicate-free. -/
theorem toggle_step (cur : List String) (id : String) (hne : cur ≠ [])
    (hnd : cur.Nodup) :
    handleToggleModel cur id ≠ [] ∧ (handleToggleModel cur id).Nodup := by
  unfold handleToggleModel
  by_cases hmem : id ∈ cur
  · simp only [hmem, if_true]
    by_cases hlen : cur.length > 1
    · simp only [hlen, if_true]
      refine ⟨?_, hnd.filter _⟩
      intro hempty
      rw [List.filter_eq_nil_iff] at hempty
      have hall : ∀ a ∈ cur, a = id := by
        intro a ha
        have := hempty a ha
        simpa [bne_iff_ne] using this
      match cur, hlen, hnd, hall with
      | a :: b :: rest, _, hnd2, hall2 =>
          have hab : a = id := hall2 a (by simp)
          have hbb : b = id := hall2 b (by simp)
          have : a ∉ b :: rest := (List.nodup_cons.mp hnd2).1
          exact this (by simp [hab, hbb])
    · simp only [hlen, if_false]
      exact ⟨hne, hnd⟩
  · simp only [hmem, if_false]
    refine ⟨by simp, ?_⟩
    simp [List.nodup_append, hmem, hnd]

/-- Any sequence of toggles from a non-empty duplicate-free selection
keeps it non-empty and duplicate-free. -/
theorem toggle_foldl (ids : List String) (init : List String)
    (hne : init ≠ []) (hnd : init.Nodup) :
    ids.foldl handleToggleModel init ≠ [] ∧
    (ids.foldl handleToggleModel init).Nodup := by
  induction ids generalizing init with
  | nil => exact ⟨hne, hnd⟩
  | cons i is ih =>
      obtain ⟨h1, h2⟩ := toggle_step init i hne hnd
      simpa using ih _ h1 h2

/-- C1: for every successful exchange the sequence of stage events is a
subsequence of the canonical order (so no stage K+1 event precedes the
stage K completion event), and on the consumer side the stage-1 loading
flag is set by stage1_start and stage2_5_start, cleared only by
stage1_complete, and untouched by every other event. -/
theorem claim1_stage_event_order :
    (∀ (α : Type) (resolving s2 s25 title : Bool) (d1 d2 md d3 : α),
      List.Sublist
        (((orchestratorEvents resolving s2 s25 title d1 d2 md d3).map
            StreamEvent.kind).filter isStageKind)
        canonicalStageOrder) ∧
    (∀ (α : Type) (e : StreamEvent α) (m : Message α),
      (eventUpdate e m).loading.stage1 =
        match e.kind with
        | .stage1Start => true
        | .stage2_5Start => true
        | .stage1Complete => false
        | _ => m.loading.stage1) := by
  constructor
  · intro α resolving s2 s25 title d1 d2 md d3
    cases resolving <;> cases s2 <;> cases s25 <;> cases title <;>
      simp [orchestratorEvents, StreamEvent.kind, isStageKind,
            canonicalStageOrder] <;> decide
  · intro α e m
    cases e <;> rfl

/-- C2: a save attempt with an empty council list or no chairman is
rejected with an error message as its sole action (so api.updateConfig
is never invoked and the stored configuration is unchanged), and a
configuration update or localStorage write occurs only when the council
list is non-empty and a chairman is selected. -/
theorem claim2_save_guard (hasOverride : Bool) (council : List String)
    (chairman : String) :
    ((council = [] ∨ chairman = "") →
      ∃ msg, handleSave hasOverride council chairman =
        [SaveAction.setErrorMsg (some msg)]) ∧
    (∀ c ch, SaveAction.callUpdateConfig c ch ∈
        handleSave hasOverride council chairman →
      council ≠ [] ∧ chairman ≠ "") ∧
    (∀ c ch, SaveAction.writeLocalStorage c ch ∈
        handleSave hasOverride council chairman →
      council ≠ [] ∧ chairman ≠ "") := by
  refine ⟨?_, ?_, ?_⟩
  · rintro (h | h)
    · exact ⟨"Please select at least one council member", by simp [handleSave, h]⟩
    · by_cases h1 : council.length = 0
      · exact ⟨"Please select at least one council member", by simp [handleSave, h1]⟩
      · exact ⟨"Please select a chairman model", by simp [handleSave, h1, h]⟩
  · intro c ch hmem
    by_cases h1 : council.length = 0
    · simp [handleSave, h1] at hmem
    · by_cases h2 : chairman = ""
      · simp [handleSave, h1, h2] at hmem
      · exact ⟨fun h => h1 (by simp [h]), h2⟩
  · intro c ch hmem
    by_cases h1 : council.length = 0
    · simp [handleSave, h1] at hmem
    · by_cases h2 : chairman = ""
      · simp [handleSave, h1, h2] at hmem
      · exact ⟨fun h => h1 (by simp [h]), h2⟩

/-- C2 witness: with an empty council list the handler only sets an
error message, and the guard conjuncts are applicable. -/
theorem claim2_save_guard_witness :
    ∃ msg, handleSave false [] "model-x" =
      [SaveAction.setErrorMsg (some msg)] :=
  (claim2_save_guard false [] "model-x").1 (Or.inl rfl)

/-- C3: the Stage1 view renders one tab per result (no seat dropped),
and a result with its error field set gets the warning marker and error
styling on its tab, the error badge and the failure message in the
content panel, and its response text is not rendered. -/
theorem claim3_stage1_seats (responses : List ModelResult) (r : ModelResult)
    (herr : r.error ≠ "") :
    (stage1Tabs responses).length = responses.length ∧
    (renderTab r).warningMarker = true ∧
    (renderTab r).errorStyled = true ∧
    (renderContent r).errorBadge = true ∧
    (renderContent r).body = TabBody.failure r.error ∧
    (∀ s th resp, (renderContent r).body ≠ TabBody.answer s th resp) := by
  have hb : (r.error != "") = true := by
    simpa [bne_iff_ne] using herr
  refine ⟨?_, ?_, ?_, ?_, ?_, ?_⟩
  · cases responses <;> simp [stage1Tabs]
  · simp [renderTab, hb]
  · simp [renderTab, hb]
  · simp [renderContent, hb]
  · simp [renderContent, hb]
  · intro s th resp
    simp [renderContent, hb]

/-- C3 witness: a two-seat list where the second seat failed still
renders two tabs and the failed seat is surfaced as an error. -/
theorem claim3_stage1_seats_witness :
    (stage1Tabs
      [{ model := "openai/gpt-4o", response := "ok", thinking := "",
         persona := "", error := "", is_rebuttal := false,
         is_reasoning_model := false },
       { model := "x-ai/grok", response := "", thinking := "",
         persona := "", error := "timeout", is_rebuttal := false,
         is_reasoning_model := false }]).length = 2 ∧
    (renderContent
      { model := "x-ai/grok", response := "", thinking := "",
        persona := "", error := "timeout", is_rebuttal := false,
        is_reasoning_model := false }).body = TabBody.failure "timeout" := by
  have h := claim3_stage1_seats
    [{ model := "openai/gpt-4o", response := "ok", thinking := "",
       persona := "", error := "", is_rebuttal := false,
       is_reasoning_model := false },
     { model := "x-ai/grok", response := "", thinking := "",
       persona := "", error := "timeout", is_rebuttal := false,
       is_reasoning_model := false }]
    { model := "x-ai/grok", response := "", thinking := "",
      persona := "", error := "timeout", is_rebuttal := false,
      is_reasoning_model := false }
    (by decide)
  exact ⟨h.1, h.2.2.2.2.1⟩

/-- C4: the Ranking Aggregator scores each labeled answer by the mean
of its positions across the reviews that ranked it, omitting an answer
from the contribution of a reviewer that did not rank it (first
conjunct, in general; the concrete conjuncts show an unranked answer is
not penalized), and on reviews [[A,B,C],[B,A,C],[A,B,C]] the aggregate
order is A, B, C with mean ranks 4/3 (1.33), 5/3 (1.67) and 3.0. -/
theorem claim4_aggregator_mean_ranks :
    (∀ (r : List String) (reviews : List (List String)) (a : String),
      r.findIdx? (fun x => x == a) = none →
      rankPositions (r :: reviews) a = rankPositions reviews a) ∧
    aggregateOrder [["A", "B", "C"], ["B", "A", "C"], ["A", "B", "C"]] =
      ["A", "B", "C"] ∧
    meanRank [["A", "B", "C"], ["B", "A", "C"], ["A", "B", "C"]] "A" = 4 / 3 ∧
    meanRank [["A", "B", "C"], ["B", "A", "C"], ["A", "B", "C"]] "B" = 5 / 3 ∧
    meanRank [["A", "B", "C"], ["B", "A", "C"], ["A", "B", "C"]] "C" = 3 ∧
    rankPositions [["A", "B"], ["B", "A", "C"]] "C" = [3] ∧
    voteCount [["A", "B"], ["B", "A", "C"]] "C" = 1 ∧
    meanRank [["A", "B"], ["B", "A", "C"]] "C" = 3 := by
  refine ⟨?_, by decide, ?_, ?_, ?_, by decide, by decide, ?_⟩
  · intro r reviews a h
    simp [rankPositions, h]
  · have h1 : rankSum [["A", "B", "C"], ["B", "A", "C"], ["A", "B", "C"]] "A" = 4 := by decide
    have h2 : voteCount [["A", "B", "C"], ["B", "A", "C"], ["A", "B", "C"]] "A" = 3 := by decide
    rw [meanRank, h1, h2]; norm_num
  · have h1 : rankSum [["A", "B", "C"], ["B", "A", "C"], ["A", "B", "C"]] "B" = 5 := by decide
    have h2 : voteCount [["A", "B", "C"], ["B", "A", "C"], ["A", "B", "C"]] "B" = 3 := by decide
    rw [meanRank, h1, h2]; norm_num
  · have h1 : rankSum [["A", "B", "C"], ["B", "A", "C"], ["A", "B", "C"]] "C" = 9 := by decide
    have h2 : voteCount [["A", "B", "C"], ["B", "A", "C"], ["A", "B", "C"]] "C" = 3 := by decide
    rw [meanRank, h1, h2]; norm_num
  · have h1 : rankSum [["A", "B"], ["B", "A", "C"]] "C" = 3 := by decide
    have h2 : voteCount [["A", "B"], ["B", "A", "C"]] "C" = 1 := by decide
    rw [meanRank, h1, h2]; norm_num

/-- C4 witness: a reviewer that ranked only A and B contributes nothing
to the score of C. -/
theorem claim4_aggregator_mean_ranks_witness :
    rankPositions [["A", "B"], ["B", "A", "C"]] "C" =
      rankPositions [["B", "A", "C"]] "C" :=
  claim4_aggregator_mean_ranks.1 ["A", "B"] [["B", "A", "C"]] "C" (by decide)

/-- C5: for a well-formed per-exchange mapping (labels pairwise
distinct, models pairwise distinct), every model of the exchange has a
label and reveal inverts hide on it: reveal (hide m) = m. -/
theorem claim5_anonymizer_bijection (mapping : List (String × String))
    (hwf : WellFormedMapping mapping) (m : String)
    (hm : m ∈ mapping.map (fun p => p.2)) :
    ∃ l, hide mapping m = some l ∧ reveal mapping l = some m := by
  induction mapping with
  | nil => simp at hm
  | cons p rest ih =>
      obtain ⟨l0, m0⟩ := p
      obtain ⟨hl, hr⟩ := hwf
      simp only [List.map_cons, List.nodup_cons] at hl hr
      by_cases h : m0 = m
      · refine ⟨l0, ?_, ?_⟩
        · simp [hide, List.find?_cons_of_pos, h]
        · simp [reveal, List.find?_cons_of_pos, h]
      · have hm2 : m ∈ rest.map (fun p => p.2) := by
          rcases List.mem_cons.mp hm with h0 | h0
          · exact absurd h0.symm h
          · exact h0
        obtain ⟨l, hhide, hreveal⟩ := ih ⟨hl.2, hr.2⟩ hm2
        have hlmem : l ∈ rest.map (fun p => p.1) := by
          obtain ⟨q, hq⟩ := Option.map_eq_some'.mp hreveal
          have hq1 : q.1 = l := by
            have := List.find?_some hq.1
            simpa using this
          have hq2 : q ∈ rest := List.mem_of_find?_eq_some hq.1
          exact hq1 ▸ List.mem_map_of_mem (fun p => p.1) hq2
        have hl0 : l0 ≠ l := fun he => hl.1 (he ▸ hlmem)
        refine ⟨l, ?_, ?_⟩
        · have : ((l0, m0).2 == m) = false := by
            simpa using h
          simpa [hide, List.find?_cons_of_neg, this] using hhide
        · have : ((l0, m0).1 == l) = false := by
            simpa using hl0
          simpa [reveal, List.find?_cons_of_neg, this] using hreveal

/-- C5 witness: on the mapping A to m1, B to m2 the composite lookup
returns the model itself. -/
theorem claim5_anonymizer_bijection_witness :
    ∃ l, hide [("A", "m1"), ("B", "m2")] "m2" = some l ∧
      reveal [("A", "m1"), ("B", "m2")] l = some "m2" :=
  claim5_anonymizer_bijection [("A", "m1"), ("B", "m2")]
    ⟨by decide, by decide⟩ "m2" (by decide)

/-- C6: estimateCost is a pure function of its inputs: two invocations
with identical inputs (under arbitrary, possibly different,
environments) return identical results, and no model call is made in
either invocation. -/
theorem claim6_estimate_pure (env1 env2 : Nat)
    (priceTable : List (String × Rat)) (query : String)
    (councilMembers : List String) (chairman : String) :
    estimateCost env1 priceTable query councilMembers chairman =
      estimateCost env2 priceTable query councilMembers chairman ∧
    (estimateCost env1 priceTable query councilMembers chairman).2 = [] :=
  ⟨rfl, rfl⟩

/-- C8: a response with is_rebuttal set is rendered with the revised
badge saying the answer was updated after peer review; on the stream
side, stage2_5_start re-enables the stage-1 loading flag and a
subsequent stage1_complete overwrites the stage1 data slot with the
superseding results and clears the flag. -/
theorem claim8_rebuttal_supersedes :
    (∀ r : ModelResult, (renderContent r).rebuttalBadge =
      if r.is_rebuttal then
        some "This answer was updated after peer review."
      else none) ∧
    (∀ (α : Type) (m : Message α),
      (eventUpdate StreamEvent.stage2_5Start m).loading.stage1 = true) ∧
    (∀ (α : Type) (m : Message α) (d : α),
      (eventUpdate (StreamEvent.stage1Complete d) m).stage1 = some d ∧
      (eventUpdate (StreamEvent.stage1Complete d) m).loading.stage1 = false) :=
  ⟨fun _ => rfl, fun _ _ => rfl, fun _ _ _ => ⟨rfl, rfl⟩⟩

/-- C10 counterexample: the claim as stated fails on a selection with a
duplicate entry: ["m", "m"] is non-empty, yet a single toggle of "m"
empties the selection, because removal filters out every occurrence. -/
theorem claim10_counterexample :
    (["m", "m"] : List String) ≠ [] ∧
    handleToggleModel ["m", "m"] "m" = [] := by decide

/-- C10 (amended): starting from a non-empty selection without
duplicate entries, every sequence of handleToggleModel calls keeps the
selection non-empty (and duplicate-free); toggling a selected model
removes it only when at least two models are selected (the removal is
refused when it is the last one), and toggling an unselected model
appends it. -/
theorem claim10_toggle_nonempty (init ids : List String)
    (hne : init ≠ []) (hnd : init.Nodup) :
    ids.foldl handleToggleModel init ≠ [] ∧
    (ids.foldl handleToggleModel init).Nodup ∧
    (∀ id, id ∉ init → handleToggleModel init id = init ++ [id]) ∧
    (∀ id, id ∈ init → 1 < init.length →
      handleToggleModel init id = init.filter (fun m => m != id)) ∧
    (∀ id, id ∈ init → ¬1 < init.length → handleToggleModel init id = init) := by
  obtain ⟨h1, h2⟩ := toggle_foldl ids init hne hnd
  refine ⟨h1, h2, ?_, ?_, ?_⟩
  · intro id hmem
    simp [handleToggleModel, hmem]
  · intro id hmem hlen
    simp [handleToggleModel, hmem, hlen]
  · intro id hmem hlen
    simp [handleToggleModel, hmem, hlen]

/-- C10 witness: toggling a, c, a in turn starting from [a, b] never
empties the selection. -/
theorem claim10_toggle_nonempty_witness :
    (["a", "c", "a"] : List String).foldl handleToggleModel ["a", "b"] ≠ [] :=
  (claim10_toggle_nonempty ["a", "b"] ["a", "c", "a"]
    (by decide) (by decide)).1

end LLMCouncil
